import Mathlib

set_option maxRecDepth 4000

attribute [local semireducible] Rat.ofScientific Rat.mul Rat.inv Rat.add Rat.sub

/-!
Verification development for the Telegram location-mining bot repository.

The development shallowly embeds the core algorithms of the repository:
the persistent hash-linked ledger (`src/core/blockchain.py`), the era-based
node rotation (`src/core/node_manager.py`), the coordinate obfuscation,
mining-interval and winner-determination logic
(`src/attached_assets/mining_1751897303730.py`) and the Haversine distance
(`src/core/utils.py`).

Modelling conventions:
- Python `float` values are modelled as exact rationals (`ℚ`) where the code
  only moves them around, and as real numbers (`ℝ`) where the code performs
  transcendental arithmetic (`math.sqrt`, `math.cos`, `math.atan2`);
  floating-point rounding is not modelled.
- `hashlib.sha256` is embedded concretely (bytes as `Nat` below 256, words as
  `Nat` reduced mod 2^32), so all hash-derived strings are computable.
- File-system state for the ledger is an explicit record of the live and
  backup file contents.
-/

namespace Sha256

/-- Bitwise rotate-right of a 32-bit word represented as a `Nat` below `2^32`. -/
def rotr (x n : Nat) : Nat := ((x >>> n) ||| (x <<< (32 - n))) &&& 0xffffffff

/-- SHA-256 round constants (FIPS 180-4). -/
def K : List Nat :=
  [1116352408, 1899447441, 3049323471, 3921009573, 961987163,
   1508970993, 2453635748, 2870763221, 3624381080, 310598401,
   607225278, 1426881987, 1925078388, 2162078206, 2614888103,
   3248222580, 3835390401, 4022224774, 264347078, 604807628,
   770255983, 1249150122, 1555081692, 1996064986, 2554220882,
   2821834349, 2952996808, 3210313671, 3336571891, 3584528711,
   113926993, 338241895, 666307205, 773529912, 1294757372,
   1396182291, 1695183700, 1986661051, 2177026350, 2456956037,
   2730485921, 2820302411, 3259730800, 3345764771, 3516065817,
   3600352804, 4094571909, 275423344, 430227734, 506948616,
   659060556, 883997877, 958139571, 1322822218, 1537002063,
   1747873779, 1955562222, 2024104815, 2227730452, 2361852424,
   2428436474, 2756734187, 3204031479, 3329325298]

/-- SHA-256 initial hash state (FIPS 180-4). -/
def initH : List Nat :=
  [1779033703, 3144134277, 1013904242, 2773480762, 1359893119,
   2600822924, 528734635, 1541459225]

/-- Pad a byte message per FIPS 180-4: append `0x80`, zeros, then the 64-bit
big-endian bit length. -/
def pad (msg : List Nat) : List Nat :=
  let len := msg.length
  let bitlen := len * 8
  let zeros := (120 - ((len + 1) % 64)) % 64
  msg ++ [0x80] ++ List.replicate zeros 0 ++
    (List.range 8).map (fun i => (bitlen >>> (8 * (7 - i))) &&& 0xff)

/-- Group bytes into 32-bit big-endian words. -/
def toWords : List Nat → List Nat
  | a :: b :: c :: d :: rest =>
      ((((a <<< 8) ||| b) <<< 8 ||| c) <<< 8 ||| d) :: toWords rest
  | _ => []

/-- Split a word list into chunks of 16 words. -/
def chunks (ws : List Nat) : List (List Nat) :=
  (List.range ((ws.length + 15) / 16)).map (fun i => (ws.drop (16 * i)).take 16)

/-- Extend a 16-word chunk to the 64-word message schedule. -/
def msgSchedule (ws : List Nat) : Array Nat :=
  (List.range 48).foldl
    (fun W _ =>
      let i := W.size
      let w15 := W.getD (i - 15) 0
      let w2 := W.getD (i - 2) 0
      let s0 := (rotr w15 7) ^^^ (rotr w15 18) ^^^ (w15 >>> 3)
      let s1 := (rotr w2 17) ^^^ (rotr w2 19) ^^^ (w2 >>> 10)
      W.push ((W.getD (i - 16) 0 + s0 + W.getD (i - 7) 0 + s1) &&& 0xffffffff))
    ws.toArray

/-- Working state of the compression function. -/
structure St where
  a : Nat
  b : Nat
  c : Nat
  d : Nat
  e : Nat
  f : Nat
  g : Nat
  h : Nat

/-- One round of the SHA-256 compression function. -/
def round (s : St) (k w : Nat) : St :=
  let S1 := (rotr s.e 6) ^^^ (rotr s.e 11) ^^^ (rotr s.e 25)
  let ch := (s.e &&& s.f) ^^^ ((s.e ^^^ 0xffffffff) &&& s.g)
  let t1 := (s.h + S1 + ch + k + w) &&& 0xffffffff
  let S0 := (rotr s.a 2) ^^^ (rotr s.a 13) ^^^ (rotr s.a 22)
  let mj := (s.a &&& s.b) ^^^ (s.a &&& s.c) ^^^ (s.b &&& s.c)
  let t2 := (S0 + mj) &&& 0xffffffff
  ⟨(t1 + t2) &&& 0xffffffff, s.a, s.b, s.c, (s.d + t1) &&& 0xffffffff, s.e, s.f, s.g⟩

/-- Compress one 16-word chunk into the running hash state. -/
def compressChunk (hs : List Nat) (chunk : List Nat) : List Nat :=
  let W := msgSchedule chunk
  match hs with
  | [h0, h1, h2, h3, h4, h5, h6, h7] =>
    let s := (List.range 64).foldl
      (fun s i => round s (K.getD i 0) (W.getD i 0)) ⟨h0, h1, h2, h3, h4, h5, h6, h7⟩
    [(h0 + s.a) &&& 0xffffffff, (h1 + s.b) &&& 0xffffffff,
     (h2 + s.c) &&& 0xffffffff, (h3 + s.d) &&& 0xffffffff,
     (h4 + s.e) &&& 0xffffffff, (h5 + s.f) &&& 0xffffffff,
     (h6 + s.g) &&& 0xffffffff, (h7 + s.h) &&& 0xffffffff]
  | other => other

/-- SHA-256 digest of a byte list, as eight 32-bit words. -/
def digestWords (msg : List Nat) : List Nat :=
  (chunks (toWords (pad msg))).foldl compressChunk initH

/-- SHA-256 digest of a byte list, as 32 bytes (big-endian per word). -/
def digestBytes (msg : List Nat) : List Nat :=
  (digestWords msg).flatMap
    (fun w => [(w >>> 24) &&& 0xff, (w >>> 16) &&& 0xff, (w >>> 8) &&& 0xff, w &&& 0xff])

/-- Lower-case hexadecimal digit for a value below 16. -/
def hexChar (n : Nat) : Char :=
  if n < 10 then Char.ofNat (48 + n) else Char.ofNat (87 + n)

/-- Lower-case hexadecimal rendering of a byte list. -/
def hexOfBytes (bs : List Nat) : String :=
  ⟨bs.flatMap (fun b => [hexChar ((b >>> 4) &&& 0xf), hexChar (b &&& 0xf)])⟩

/-- Bytes of an ASCII string (models `str.encode()` for ASCII content). -/
def strBytes (s : String) : List Nat := s.data.map Char.toNat

/-- `hashlib.sha256(s.encode()).hexdigest()` for ASCII `s`. -/
def sha256hex (s : String) : String := hexOfBytes (digestBytes (strBytes s))

end Sha256


/-- Python string slicing `s[:n]` for ASCII strings (kernel-reducible,
unlike `String.take`). -/
def strTake (s : String) (n : Nat) : String := ⟨s.data.take n⟩

/-- Python `int(q)` on an exact rational: truncation toward zero.
(`Rat.floor` is used rather than `Int.floor` so that the definition reduces
inside the kernel; `ratFloor_eq_intFloor` bridges the two.) -/
def pyInt (q : ℚ) : ℤ := if 0 ≤ q then q.floor else -((-q).floor)

namespace Ledger

/-- `Block` from `src/core/blockchain.py`.  Fields in source order; `hash` and
`reward` are set by `__init__`.  `timestamp` (`time.time()`) and the numeric
payload fields are modelled as exact rationals. -/
structure Block where
  timestamp : ℚ
  data : String
  previous_hash : String
  target_distance : Option ℚ
  winner_id : Option ℤ
  travel_distance : Option ℚ
  miner_address : Option String
  block_height : ℕ
  hash : String
  reward : ℚ
deriving DecidableEq, Repr

/-- `BLOCK_REWARD` from `config/settings.py` (default `1000.0`). -/
def BLOCK_REWARD : ℚ := 1000

/-- Textual form of a numeric value interpolated into the hash string
(`f"{self.timestamp}"`).  The precise float formatting of Python is not
modelled; only equality of inputs matters for the claims. -/
def pyNumStr (q : ℚ) : String := toString q

/-- Textual form of an optional numeric value in an f-string; Python renders
`None` as `"None"`. -/
def pyOptNumStr : Option ℚ → String
  | none => "None"
  | some q => toString q

/-- `Block.calculate_hash`:
`sha256(f"{timestamp}{data}{previous_hash}{target_distance}")`.
It reads only these four fields. -/
def calculateHash (timestamp : ℚ) (data previous_hash : String)
    (target_distance : Option ℚ) : String :=
  Sha256.sha256hex
    (pyNumStr timestamp ++ data ++ previous_hash ++ pyOptNumStr target_distance)

/-- `Block.calculate_hash` as a method of the block. -/
def Block.calculate_hash (b : Block) : String :=
  calculateHash b.timestamp b.data b.previous_hash b.target_distance

/-- `Block.__init__`: stores the fields, computes `hash`, sets the reward.
`block_height or 0` maps `None` (and `0`) to `0`. -/
def Block.make (timestamp : ℚ) (data previous_hash : String)
    (target_distance : Option ℚ) (winner_id : Option ℤ)
    (travel_distance : Option ℚ) (miner_address : Option String)
    (block_height : Option ℕ) : Block :=
  { timestamp := timestamp
    data := data
    previous_hash := previous_hash
    target_distance := target_distance
    winner_id := winner_id
    travel_distance := travel_distance
    miner_address := miner_address
    block_height := block_height.getD 0
    hash := calculateHash timestamp data previous_hash target_distance
    reward := BLOCK_REWARD }

/-- `Blockchain.create_genesis_block` (the `time.time()` value is a
parameter). -/
def createGenesisBlock (now : ℚ) : Block :=
  Block.make now "Genesis Block - Bikera Mining Bot" "0" none none none none (some 0)

/-- `Blockchain.add_block`: link a new block to the current tail and append.
`self.chain[-1]` requires a non-empty chain; on an empty chain the source
raises, modelled by returning the chain unchanged (the branch is unreachable:
the chain always holds at least the genesis block once loaded). -/
def addBlock (chain : List Block) (now : ℚ) (data : String) (target_distance : ℚ)
    (winner_id : ℤ) (travel_distance : ℚ) (miner_address : String) : List Block :=
  match chain.getLast? with
  | none => chain
  | some prev =>
      chain ++ [Block.make now data prev.hash (some target_distance) (some winner_id)
        (some travel_distance) (some miner_address) (some chain.length)]

/-- The per-block checks of the `for i in range(1, len(self.chain))` loop of
`Blockchain._verify_chain_integrity`: `previous_hash` linkage and
`block_height == i`. -/
def linksOk : Block → ℕ → List Block → Bool
  | _, _, [] => true
  | prev, i, b :: rest =>
      (b.previous_hash == prev.hash && b.block_height == i) && linksOk b (i + 1) rest

/-- `Blockchain._verify_chain_integrity`: non-empty, genesis `previous_hash`
is `"0"`, and every later block passes `linksOk` (hashes are not
recomputed). -/
def verifyChainIntegrity (chain : List Block) : Bool :=
  match chain with
  | [] => false
  | b0 :: rest => b0.previous_hash == "0" && linksOk b0 1 rest

/-- The body of the `for` loop of `Blockchain._deserialize_chain`, from index
`i` on: each record goes through `Block.from_dict` (a `none` record is one on
which `from_dict` raises, e.g. a missing required key) and has its
`block_height` forced to its index; any raise aborts the whole call. -/
def deserializeFrom : ℕ → List (Option Block) → Option (List Block)
  | _, [] => some []
  | _, none :: _ => none
  | i, some b :: rest =>
      match deserializeFrom (i + 1) rest with
      | some c => some ({ b with block_height := i } :: c)
      | none => none

/-- `Blockchain._deserialize_chain`: rebuild blocks from the parsed records,
forcing `block.block_height = i`; `Block.from_dict` raising on any record
makes the whole call raise (`none`), since the loop's `except` re-raises. -/
def deserializeChain (ds : List (Option Block)) : Option (List Block) :=
  deserializeFrom 0 ds

/-- Content of one on-disk ledger file: absent, present but not valid JSON,
or a parsed list of block records (each of which `Block.from_dict` may still
reject). -/
inductive FileState where
  | missing
  | unparsable
  | parsed (records : List (Option Block))
deriving DecidableEq

/-- `os.path.exists`. -/
def FileState.existsOnDisk : FileState → Bool
  | .missing => false
  | _ => true

/-- `Blockchain._load_from_file`: `json.load`, `None` on failure. -/
def loadFromFile : FileState → Option (List (Option Block))
  | .parsed d => some d
  | _ => none

/-- The persisted state seen by the ledger: the live chain file and its
`.backup` sibling. -/
structure FS where
  live : FileState
  backup : FileState
deriving DecidableEq

/-- `Blockchain.save_blockchain`: write the chain to a temp file, rename the
existing live file (if any) to `.backup`, move the temp file into place.
`to_dict` writes every required key, so the written records all
deserialize. -/
def saveBlockchain (fs : FS) (chain : List Block) : FS :=
  { live := .parsed (chain.map some)
    backup := if fs.live.existsOnDisk then fs.live else fs.backup }

/-- `Blockchain._recover_from_backup`: load the `.backup` file and accept its
chain only if it passes the integrity check.  Python's `if backup_data:` is
false for both `None` and the empty list, and a `_deserialize_chain` raise is
caught by this function's own `except`, so every failure yields `None`. -/
def recoverFromBackup (fs : FS) : Option (List Block) :=
  if ¬ fs.backup.existsOnDisk then none
  else
    match loadFromFile fs.backup with
    | none => none
    | some ds =>
        if ds = [] then none
        else
          match deserializeChain ds with
          | none => none
          | some bc => if verifyChainIntegrity bc then some bc else none

/-- The fall-through tail of `Blockchain.load_blockchain_state` once the live
file has been rejected: try `_recover_from_backup`; if it fails too, create a
fresh genesis chain.  Either adopted chain is re-persisted via
`save_blockchain`. -/
def loadViaBackup (fs : FS) (now : ℚ) : List Block × FS :=
  match recoverFromBackup fs with
  | some bc => (bc, saveBlockchain fs bc)
  | none =>
      let c := [createGenesisBlock now]
      (c, saveBlockchain fs c)

/-- `Blockchain.load_blockchain_state`: returns the adopted chain and the
resulting file-system state.  Missing live file: fresh genesis.  Live file
unparsable (or parsed to the falsy empty list) or its chain failing the
integrity check: fall through to the backup path.  But when the live file
parses as JSON and `_deserialize_chain` raises on one of its records, the
raise escapes to this function's outer `except` handler, which installs a
fresh genesis chain directly — the backup is not consulted on that path. -/
def loadBlockchainState (fs : FS) (now : ℚ) : List Block × FS :=
  if ¬ fs.live.existsOnDisk then
    let c := [createGenesisBlock now]
    (c, saveBlockchain fs c)
  else
    match loadFromFile fs.live with
    | none => loadViaBackup fs now
    | some ds =>
        if ds = [] then loadViaBackup fs now
        else
          match deserializeChain ds with
          | none =>
              let c := [createGenesisBlock now]
              (c, saveBlockchain fs c)
          | some c =>
              if verifyChainIntegrity c then (c, fs)
              else loadViaBackup fs now

end Ledger

namespace NodeManager

/-- `NodeManager.get_current_era`: `((interval_count - 1) // 100) + 1` for a
positive count, else `1`. -/
def getCurrentEra (intervalCount : ℕ) : ℕ :=
  if intervalCount > 0 then (intervalCount - 1) / 100 + 1 else 1

/-- `NodeManager.should_handle_telegram`, with the heartbeat registry
abstracted into the sorted `activeNodes` list it produces: the designated
handler is the node at index `(era - 1) % len(active_nodes)`; with no active
nodes the caller itself becomes the handler. -/
def shouldHandleTelegram (nodeId : String) (activeNodes : List String)
    (intervalCount : ℕ) : Bool × String :=
  let era := getCurrentEra intervalCount
  match activeNodes with
  | [] => (true, "No active nodes found, " ++ nodeId ++ " becoming handler")
  | _ :: _ =>
      let idx := (era - 1) % activeNodes.length
      let handler := activeNodes.getD idx ""
      (nodeId == handler, handler)

end NodeManager

namespace Mining

open Real

/-- `math.radians`. -/
noncomputable def radians (x : ℝ) : ℝ := x * Real.pi / 180

/-- `math.atan2` (two-argument arctangent, Python semantics). -/
noncomputable def atan2 (y x : ℝ) : ℝ :=
  if 0 < x then Real.arctan (y / x)
  else if x < 0 then
    (if 0 ≤ y then Real.arctan (y / x) + Real.pi else Real.arctan (y / x) - Real.pi)
  else if 0 < y then Real.pi / 2
  else if y < 0 then -(Real.pi / 2)
  else 0

/-- `calculate_distance` from `src/core/utils.py`: Haversine distance in
kilometers between `(lat, lon)` pairs given in degrees. -/
noncomputable def calculate_distance (coord1 coord2 : ℝ × ℝ) : ℝ :=
  let R : ℝ := 6371
  let lat1 := radians coord1.1
  let lon1 := radians coord1.2
  let lat2 := radians coord2.1
  let lon2 := radians coord2.2
  let dlat := lat2 - lat1
  let dlon := lon2 - lon1
  let a := Real.sin (dlat / 2) ^ 2 +
    Real.cos lat1 * Real.cos lat2 * Real.sin (dlon / 2) ^ 2
  let c := 2 * atan2 (Real.sqrt a) (Real.sqrt (1 - a))
  R * c

/-- `ObfuscatedCoordinate` from
`src/attached_assets/mining_1751897303730.py`.  The planar coordinates are
exact rationals. -/
structure ObfuscatedCoordinate where
  x : ℚ
  y : ℚ
  zone_hash : String
  timestamp : ℚ
  user_id_hash : String
deriving DecidableEq, Repr

/-- `CoordinateObfuscator`: per-interval salt and the fixed `zone_size = 0.01`
(kept as a field, as in `__init__`). -/
structure CoordinateObfuscator where
  interval_salt : String
  zone_size : ℚ
deriving DecidableEq, Repr

/-- `CoordinateObfuscator.__init__` (non-`None` salt). -/
def CoordinateObfuscator.make (salt : String) : CoordinateObfuscator :=
  ⟨salt, 1 / 100⟩

/-- `_get_geographic_zone`: `int(lat / zone_size), int(lon / zone_size)`. -/
def CoordinateObfuscator.getGeographicZone (o : CoordinateObfuscator)
    (lat lon : ℚ) : ℤ × ℤ :=
  (pyInt (lat / o.zone_size), pyInt (lon / o.zone_size))

/-- `_get_zone_hash`: `sha256(f"{zone_lat}:{zone_lon}:{salt}")[:16]`. -/
def CoordinateObfuscator.getZoneHash (o : CoordinateObfuscator)
    (zone_lat zone_lon : ℤ) : String :=
  strTake (Sha256.sha256hex
    (toString zone_lat ++ ":" ++ toString zone_lon ++ ":" ++ o.interval_salt)) 16

/-- `int.from_bytes(bs, byteorder='big')`. -/
def beBytesToNat (bs : List Nat) : Nat := bs.foldl (fun acc b => acc * 256 + b) 0

/-- `_get_user_offset`: two 8-byte slices of
`sha256(f"{user_id}:{interval_number}:{salt}")` mapped into
`[-0.005, 0.005]` degree offsets. -/
def CoordinateObfuscator.getUserOffset (o : CoordinateObfuscator)
    (user_id : ℤ) (interval_number : ℕ) : ℚ × ℚ :=
  let seed_hash := Sha256.digestBytes (Sha256.strBytes
    (toString user_id ++ ":" ++ toString interval_number ++ ":" ++ o.interval_salt))
  let x_seed := beBytesToNat (seed_hash.take 8)
  let y_seed := beBytesToNat ((seed_hash.drop 8).take 8)
  let x_offset := (((x_seed % 10000 : ℕ) : ℚ) / 10000 - 1 / 2) * (1 / 100)
  let y_offset := (((y_seed % 10000 : ℕ) : ℚ) / 10000 - 1 / 2) * (1 / 100)
  (x_offset, y_offset)

/-- `_get_user_hash`: `sha256(f"{user_id}:{interval_number}:{salt}")[:16]`,
the per-interval participant token. -/
def CoordinateObfuscator.getUserHash (o : CoordinateObfuscator)
    (user_id : ℤ) (interval_number : ℕ) : String :=
  strTake (Sha256.sha256hex
    (toString user_id ++ ":" ++ toString interval_number ++ ":" ++ o.interval_salt)) 16

/-- `obfuscate_coordinate`: zone quantisation, per-user offset, local
coordinates relative to the zone center, scaled by `100000`. -/
def CoordinateObfuscator.obfuscateCoordinate (o : CoordinateObfuscator)
    (lat lon : ℚ) (user_id : ℤ) (interval_number : ℕ) (timestamp : ℚ) :
    ObfuscatedCoordinate :=
  let z := o.getGeographicZone lat lon
  let zone_hash := o.getZoneHash z.1 z.2
  let off := o.getUserOffset user_id interval_number
  let zone_center_lat := (z.1 : ℚ) * o.zone_size + o.zone_size / 2
  let zone_center_lon := (z.2 : ℚ) * o.zone_size + o.zone_size / 2
  let local_x := (lon - zone_center_lon) + off.1
  let local_y := (lat - zone_center_lat) + off.2
  let scale_factor : ℚ := 100000
  { x := local_x * scale_factor
    y := local_y * scale_factor
    zone_hash := zone_hash
    timestamp := timestamp
    user_id_hash := o.getUserHash user_id interval_number }

/-- `calculate_obfuscated_distance`: `None` across different zones, otherwise
the planar delta is unscaled and converted to kilometers with the fixed
per-degree constants `111.0` (latitude) and `111.0 * cos(radians(45))`
(longitude). -/
noncomputable def CoordinateObfuscator.calculateObfuscatedDistance
    (_o : CoordinateObfuscator) (coord1 coord2 : ObfuscatedCoordinate) :
    Option ℝ :=
  if coord1.zone_hash ≠ coord2.zone_hash then none
  else
    let dx : ℚ := coord2.x - coord1.x
    let dy : ℚ := coord2.y - coord1.y
    let scale_factor : ℝ := 100000
    let dx_real : ℝ := (dx : ℝ) / scale_factor
    let dy_real : ℝ := (dy : ℝ) / scale_factor
    let lat_km_per_degree : ℝ := 111
    let lon_km_per_degree : ℝ := 111 * Real.cos (radians 45)
    some (Real.sqrt ((dx_real * lon_km_per_degree) ^ 2 +
      (dy_real * lat_km_per_degree) ^ 2))

/-- Lookup in an insertion-ordered map modelled as an association list. -/
def lookupA {α : Type} (m : List (String × α)) (k : String) : Option α :=
  (m.find? (fun p => p.1 == k)).map (fun p => p.2)

/-- Python dict assignment `m[k] = v`: overwrite in place, else append. -/
def upsert {α : Type} (m : List (String × α)) (k : String) (v : α) :
    List (String × α) :=
  if m.any (fun p => p.1 == k) then
    m.map (fun p => if p.1 == k then (k, v) else p)
  else m ++ [(k, v)]

/-- One entry of the finalized map built by `finalize_interval`. -/
structure FinalizedEntry where
  start_coords : ObfuscatedCoordinate
  end_coords : ObfuscatedCoordinate
  timestamp : ℚ
deriving DecidableEq, Repr

/-- The finalized coordinates map: token → entry, in insertion order. -/
abbrev FinalizedMap := List (String × FinalizedEntry)

/-- `MiningInterval` state (`__init__` fields).  The token → real-user-id
side table `_user_id_mapping` is part of the in-memory state. -/
structure MiningInterval where
  start_time : Option ℚ
  is_active : Bool
  staged_coordinates : List (String × ObfuscatedCoordinate)
  finalized_coordinates : FinalizedMap
  target_distance : Option ℚ
  interval_number : ℕ
  obfuscator : Option CoordinateObfuscator
  user_id_mapping : List (String × ℤ)
deriving DecidableEq

/-- `MiningInterval.__init__`. -/
def MiningInterval.init : MiningInterval :=
  { start_time := none
    is_active := false
    staged_coordinates := []
    finalized_coordinates := []
    target_distance := none
    interval_number := 0
    obfuscator := none
    user_id_mapping := [] }

/-- `MiningInterval.start`: activate, record the interval number, draw the
target (`random.uniform`, a parameter here), clear the staged map and the
side table, and build the interval obfuscator with salt
`f"interval_{n}_{int(time.time() // 3600)}"`. -/
def MiningInterval.start (st : MiningInterval) (interval_number : ℕ)
    (now : ℚ) (target : ℚ) : MiningInterval :=
  let interval_salt :=
    "interval_" ++ toString interval_number ++ "_" ++ toString ((now / 3600).floor)
  { st with
    start_time := some now
    is_active := true
    interval_number := interval_number
    target_distance := some target
    staged_coordinates := []
    user_id_mapping := []
    obfuscator := some (CoordinateObfuscator.make interval_salt) }

/-- `MiningInterval.stage_coordinates`: no-op when inactive; otherwise
obfuscate and store under the per-interval token, updating the side table. -/
def MiningInterval.stageCoordinates (st : MiningInterval) (user_id : ℤ)
    (lat lon : ℚ) (now : ℚ) : MiningInterval :=
  if ¬ st.is_active then st
  else
    match st.obfuscator with
    | none => st
    | some o =>
        let c := o.obfuscateCoordinate lat lon user_id st.interval_number now
        { st with
          staged_coordinates := upsert st.staged_coordinates c.user_id_hash c
          user_id_mapping := upsert st.user_id_mapping c.user_id_hash user_id }

/-- `MiningInterval.finalize_interval`: deactivate and build the finalized
map, each staged coordinate serving as both `start_coords` and `end_coords`.
The staged map itself is left as it is (it is cleared by the next `start`). -/
def MiningInterval.finalizeInterval (st : MiningInterval) :
    MiningInterval × FinalizedMap :=
  let finalized : FinalizedMap :=
    st.staged_coordinates.map (fun p => (p.1, ⟨p.2, p.2, p.2.timestamp⟩))
  ({ st with is_active := false, finalized_coordinates := finalized }, finalized)

/-- `MiningInterval.get_real_user_id`. -/
def MiningInterval.getRealUserId (st : MiningInterval) (user_hash : String) :
    Option ℤ :=
  lookupA st.user_id_mapping user_hash

/-- The winner dictionary assembled by `WinnerDetermination.determine_winner`. -/
structure Winner where
  user_id : Option ℤ
  user_hash : String
  travel_distance : ℝ
  target_distance : ℝ
  difference : ℝ
  start_coords : ObfuscatedCoordinate
  end_coords : ObfuscatedCoordinate

/-- Keys of a finalized map. -/
def mapKeys (m : FinalizedMap) : List String := m.map (fun p => p.1)

/-- `set(previous_coords.keys()) & set(current_coords.keys())`.  Python
iterates this set in an unspecified order; the model fixes the order of the
first map.  No theorem below depends on the choice. -/
def commonUserHashes (prev curr : FinalizedMap) : List String :=
  (mapKeys prev).filter (fun k => (lookupA curr k).isSome)

/-- One iteration of the winner loop: skip tokens whose distance is `None`,
otherwise keep the candidate iff its `|travel - target|` strictly improves on
the best so far (`float('inf')` initially, modelled by the `none`
accumulator). -/
noncomputable def dwStep (ci : MiningInterval) (prev curr : FinalizedMap)
    (target : ℝ) (acc : Option Winner) (user_hash : String) : Option Winner :=
  match lookupA prev user_hash, lookupA curr user_hash, ci.obfuscator with
  | some pe, some ce, some o =>
      match o.calculateObfuscatedDistance pe.end_coords ce.end_coords with
      | none => acc
      | some travel =>
          let difference := |travel - target|
          let cand : Winner :=
            { user_id := ci.getRealUserId user_hash
              user_hash := user_hash
              travel_distance := travel
              target_distance := target
              difference := difference
              start_coords := pe.end_coords
              end_coords := ce.end_coords }
          match acc with
          | none => some cand
          | some w => if difference < w.difference then some cand else acc
  | _, _, _ => acc

/-- `WinnerDetermination.determine_winner`: guard clauses for empty inputs
and missing interval objects, then the loop over the common tokens. -/
noncomputable def determineWinner (previous_coords current_coords : FinalizedMap)
    (target_distance : ℝ)
    (previous_interval current_interval : Option MiningInterval) : Option Winner :=
  if previous_coords.isEmpty || current_coords.isEmpty then none
  else
    match previous_interval, current_interval with
    | some _, some ci =>
        let common := commonUserHashes previous_coords current_coords
        if common.isEmpty then none
        else common.foldl (dwStep ci previous_coords current_coords target_distance) none
    | _, _ => none

end Mining

namespace Ledger

/-- Arguments of one `Blockchain.add_block` call (the `time.time()` stamp is
explicit). -/
structure AddReq where
  now : ℚ
  data : String
  target_distance : ℚ
  winner_id : ℤ
  travel_distance : ℚ
  miner_address : String

/-- A sequence of `add_block` calls applied to a chain. -/
def applyAdds (reqs : List AddReq) (chain : List Block) : List Block :=
  reqs.foldl
    (fun c r => addBlock c r.now r.data r.target_distance r.winner_id
      r.travel_distance r.miner_address) chain

/-- The linkage part of the chain invariant: every block after the first
points at the stored hash of its predecessor. -/
def Linked (c : List Block) : Prop :=
  ∀ i, ∀ h : i < c.length, 0 < i →
    (c.get ⟨i, h⟩).previous_hash = (c.get ⟨i - 1, by omega⟩).hash

/-- The full invariant produced by `add_block` from a genesis chain. -/
def GoodChain (c : List Block) : Prop :=
  c ≠ [] ∧ Linked c ∧
    ∀ h0 : 0 < c.length,
      (c.get ⟨0, h0⟩).previous_hash = "0" ∧ (c.get ⟨0, h0⟩).block_height = 0

/-- A two-block chain with correct `previous_hash` linkage but a wrong
`block_height` on the second block (left at the `__init__` default `0`). -/
def c8ChainBadHeight : List Block :=
  [{ timestamp := 0, data := "genesis", previous_hash := "0",
     target_distance := none, winner_id := none, travel_distance := none,
     miner_address := none, block_height := 0, hash := "h0", reward := 1000 },
   { timestamp := 1, data := "next", previous_hash := "h0",
     target_distance := none, winner_id := none, travel_distance := none,
     miner_address := none, block_height := 0, hash := "h1", reward := 1000 }]

/-- Two chains agreeing pointwise on exactly the fields inspected by
`_verify_chain_integrity`: `previous_hash`, stored `hash`, `block_height`. -/
def SameLinkFields : List Block → List Block → Prop :=
  List.Forall₂ (fun a b =>
    a.previous_hash = b.previous_hash ∧ a.hash = b.hash ∧
      a.block_height = b.block_height)

/-- The live ledger file is corrupt in one of the ways that still reach the
backup path of `load_blockchain_state`: not parseable as JSON, parsed to the
(falsy) empty list, or deserialized to a chain failing the integrity check.
A live file whose records make `_deserialize_chain` raise is *not* here: on
that corrupt class the source skips the backup path entirely. -/
def LiveCorrupt (fs : FS) : Prop :=
  fs.live = .unparsable ∨ fs.live = .parsed [] ∨
    ∃ ds c, fs.live = .parsed ds ∧ ds ≠ [] ∧
      deserializeChain ds = some c ∧ verifyChainIntegrity c = false

/-- `_recover_from_backup` yields nothing: the backup is missing, unparsable,
empty, holds a record on which `Block.from_dict` raises, or deserializes to
a chain failing the integrity check. -/
def BackupFails (fs : FS) : Prop :=
  fs.backup = .missing ∨ fs.backup = .unparsable ∨ fs.backup = .parsed [] ∨
    (∃ bds, fs.backup = .parsed bds ∧ deserializeChain bds = none) ∨
    ∃ bds bc, fs.backup = .parsed bds ∧ bds ≠ [] ∧
      deserializeChain bds = some bc ∧ verifyChainIntegrity bc = false

/-- A valid one-block chain used as backup content in the C4 witness. -/
def c4BackupBlock : Block :=
  { timestamp := 0, data := "g", previous_hash := "0",
    target_distance := none, winner_id := none, travel_distance := none,
    miner_address := none, block_height := 0, hash := "hg", reward := 1000 }

/-- File system with an unparsable live file and a valid backup. -/
def c4FsGood : FS :=
  { live := .unparsable, backup := .parsed [some c4BackupBlock] }

/-- File system with both files corrupt. -/
def c4FsBad : FS := { live := .unparsable, backup := .unparsable }

/-- File system whose live file is valid JSON but holds one block record on
which `Block.from_dict` raises, next to a fully valid backup. -/
def c4FsBadRecord : FS :=
  { live := .parsed [none], backup := .parsed [some c4BackupBlock] }

end Ledger

namespace Mining

/-- An active interval with one staged coordinate, used against C6. -/
def c6Interval : MiningInterval :=
  { MiningInterval.init with
    is_active := true
    obfuscator := some (CoordinateObfuscator.make "s")
    staged_coordinates := [("tok", ⟨1, 2, "z", 0, "tok"⟩)]
    user_id_mapping := [("tok", 9)] }

/-- Same-zone coordinates an implausible ~10⁵ degrees apart, used to show
`determine_winner` applies no travel cap. -/
def c7CoordA : ObfuscatedCoordinate := ⟨0, 0, "z", 0, "a"⟩

/-- See `c7CoordA`. -/
def c7CoordB : ObfuscatedCoordinate := ⟨10000000000, 0, "z", 0, "a"⟩

/-- Finalized map of the earlier interval. -/
def c7Prev : FinalizedMap := [("a", ⟨c7CoordA, c7CoordA, 0⟩)]

/-- Finalized map of the later interval. -/
def c7Curr : FinalizedMap := [("a", ⟨c7CoordB, c7CoordB, 0⟩)]

/-- Interval context for the winner computation. -/
def c7Interval : MiningInterval :=
  { MiningInterval.init with
    is_active := true
    obfuscator := some (CoordinateObfuscator.make "s") }

/-- The winner record produced on the maps above. -/
noncomputable def c7Winner : Winner :=
  { user_id := none
    user_hash := "a"
    travel_distance := 5550000 * Real.sqrt 2
    target_distance := 5 / 100
    difference := |5550000 * Real.sqrt 2 - 5 / 100|
    start_coords := c7CoordA
    end_coords := c7CoordB }

/-- C2 scenario, interval 1: participant `7` submits `(52.0, 4.0)` during
interval number 1 (started at epoch second 1440000000, target 0.05 km). -/
def c2Interval1 : MiningInterval :=
  (MiningInterval.init.start 1 1440000000 (5 / 100)).stageCoordinates
    7 52 4 1440000100

/-- Finalization of interval 1. -/
def c2Final1 : MiningInterval × FinalizedMap := c2Interval1.finalizeInterval

/-- C2 scenario, interval 2: the same participant submits `(52.0, 4.0005)`
during interval number 2 of the same hour. -/
def c2Interval2 : MiningInterval :=
  (c2Final1.1.start 2 1440000600 (5 / 100)).stageCoordinates
    7 52 (40005 / 10000) 1440000700

/-- Finalization of interval 2. -/
def c2Final2 : MiningInterval × FinalizedMap := c2Interval2.finalizeInterval

/-- Obfuscator of the C9 scenario (any fixed salt). -/
def c9o : CoordinateObfuscator := CoordinateObfuscator.make "s"

/-- Point A `(52.005, 4.0)` obfuscated for user 9 in interval 1. -/
def c9A : ObfuscatedCoordinate := c9o.obfuscateCoordinate (52005 / 1000) 4 9 1 0

/-- Point B `(52.005, 4.001)` obfuscated for the same user and interval. -/
def c9B : ObfuscatedCoordinate :=
  c9o.obfuscateCoordinate (52005 / 1000) (4001 / 1000) 9 1 0

/-- True Haversine distance between A and B. -/
noncomputable def c9hav : ℝ :=
  calculate_distance (52005 / 1000, 4) (52005 / 1000, 4001 / 1000)

end Mining



/-- `Rat.floor` agrees with the mathematical floor. -/
lemma ratFloor_eq_intFloor (q : ℚ) : q.floor = ⌊q⌋ :=
  (Rat.floor_def' q).trans Rat.floor_def.symm

namespace Ledger

lemma linked_append (c : List Block) (hc : c ≠ []) (hl : Linked c) (b : Block)
    (hb : b.previous_hash = (c.getLast hc).hash) : Linked (c ++ [b]) := by
  intro i h hi
  have hlen : (c ++ [b]).length = c.length + 1 := by simp
  by_cases hic : i < c.length
  · have h1 : i - 1 < c.length := by omega
    simp only [List.get_eq_getElem, List.getElem_append_left hic,
      List.getElem_append_left h1]
    exact hl i hic hi
  · have hieq : i = c.length := by omega
    have hne : 0 < c.length := List.length_pos.mpr hc
    have h1 : i - 1 < c.length := by omega
    simp only [List.get_eq_getElem]
    rw [List.getElem_append_right (by omega), List.getElem_append_left h1]
    have hz0 : i - c.length = 0 := by omega
    have hm : i - 1 = c.length - 1 := by omega
    simp only [hz0, hm, List.getElem_cons_zero]
    rw [hb, List.getLast_eq_getElem]

lemma goodChain_addBlock (c : List Block) (hg : GoodChain c) (r : AddReq) :
    GoodChain (addBlock c r.now r.data r.target_distance r.winner_id
      r.travel_distance r.miner_address) := by
  obtain ⟨hne, hl, hz⟩ := hg
  have hlast : c.getLast? = some (c.getLast hne) := List.getLast?_eq_getLast c hne
  unfold addBlock
  rw [hlast]
  refine ⟨by simp, ?_, ?_⟩
  · exact linked_append c hne hl _ rfl
  · intro h0
    have hc0 : 0 < c.length := List.length_pos.mpr hne
    simp only [List.get_eq_getElem, List.getElem_append_left hc0]
    exact hz hc0

lemma goodChain_applyAdds (reqs : List AddReq) (c : List Block)
    (hg : GoodChain c) : GoodChain (applyAdds reqs c) := by
  induction reqs generalizing c with
  | nil => exact hg
  | cons r rs ih => exact ih _ (goodChain_addBlock c hg r)

lemma goodChain_genesis (now : ℚ) : GoodChain [createGenesisBlock now] := by
  refine ⟨by simp, ?_, ?_⟩
  · intro i h hi
    simp at h
    omega
  · intro h0
    exact ⟨rfl, rfl⟩

end Ledger


/-- Claim C1: every chain obtained from a (possibly empty) sequence of
`add_block` calls starting from the genesis chain satisfies
`chain[i].previous_hash == chain[i-1].hash` for all `i > 0`, and
`chain[0].previous_hash == "0"` with `chain[0].block_height == 0`. -/
theorem c1_add_block_linkage (reqs : List Ledger.AddReq) (genesisTime : ℚ) :
    (∀ i, ∀ h : i < (Ledger.applyAdds reqs [Ledger.createGenesisBlock genesisTime]).length,
      0 < i →
      ((Ledger.applyAdds reqs [Ledger.createGenesisBlock genesisTime]).get ⟨i, h⟩).previous_hash =
      ((Ledger.applyAdds reqs [Ledger.createGenesisBlock genesisTime]).get ⟨i - 1, by omega⟩).hash)
    ∧ ∀ h0 : 0 < (Ledger.applyAdds reqs [Ledger.createGenesisBlock genesisTime]).length,
      ((Ledger.applyAdds reqs [Ledger.createGenesisBlock genesisTime]).get ⟨0, h0⟩).previous_hash = "0"
      ∧ ((Ledger.applyAdds reqs [Ledger.createGenesisBlock genesisTime]).get ⟨0, h0⟩).block_height = 0 := by
  obtain ⟨-, hl, hz⟩ :=
    Ledger.goodChain_applyAdds reqs _ (Ledger.goodChain_genesis genesisTime)
  exact ⟨hl, hz⟩

/-- Witness for C1: a concrete two-block chain obtained by one `add_block`
call on the genesis chain. -/
theorem c1_add_block_linkage_witness :
    ((Ledger.applyAdds [⟨5, "blk", 2, 42, 3, "miner"⟩]
        [Ledger.createGenesisBlock 0]).get ⟨1, by decide⟩).previous_hash =
    ((Ledger.applyAdds [⟨5, "blk", 2, 42, 3, "miner"⟩]
        [Ledger.createGenesisBlock 0]).get ⟨0, by decide⟩).hash := by
  have h := (c1_add_block_linkage [⟨5, "blk", 2, 42, 3, "miner"⟩] 0).1 1 (by decide) (by decide)
  exact h

/-- Claim C3: for every interval number `n ≥ 1` and fixed non-empty active
peer list, the era is `((n - 1) / 100) + 1`, the designated handler is
the peer at index `(era - 1) % N` of the list, `should_handle` is true for
exactly one peer, and with peers `["A","B","C"]` the eras `1, 2, 3, 4`
(interval counts `1, 101, 201, 301`) map to handler indices `0, 1, 2, 0`. -/
theorem c3_era_rotation (peers : List String) (n : ℕ) (hn : 1 ≤ n)
    (hne : peers ≠ []) :
    NodeManager.getCurrentEra n = (n - 1) / 100 + 1
    ∧ (∀ nodeId : String,
        NodeManager.shouldHandleTelegram nodeId peers n =
          ((nodeId == peers.get ⟨(NodeManager.getCurrentEra n - 1) % peers.length,
              Nat.mod_lt _ (List.length_pos.mpr hne)⟩),
            peers.get ⟨(NodeManager.getCurrentEra n - 1) % peers.length,
              Nat.mod_lt _ (List.length_pos.mpr hne)⟩))
    ∧ (∃! p : String, p ∈ peers ∧ (NodeManager.shouldHandleTelegram p peers n).1 = true)
    ∧ ((NodeManager.shouldHandleTelegram "X" ["A", "B", "C"] 1).2 = "A"
        ∧ (NodeManager.shouldHandleTelegram "X" ["A", "B", "C"] 101).2 = "B"
        ∧ (NodeManager.shouldHandleTelegram "X" ["A", "B", "C"] 201).2 = "C"
        ∧ (NodeManager.shouldHandleTelegram "X" ["A", "B", "C"] 301).2 = "A") := by
  have hlen : 0 < peers.length := List.length_pos.mpr hne
  have hera : NodeManager.getCurrentEra n = (n - 1) / 100 + 1 := by
    unfold NodeManager.getCurrentEra
    rw [if_pos (by omega)]
  have hform : ∀ nodeId : String,
      NodeManager.shouldHandleTelegram nodeId peers n =
        ((nodeId == peers.get ⟨(NodeManager.getCurrentEra n - 1) % peers.length,
            Nat.mod_lt _ hlen⟩),
          peers.get ⟨(NodeManager.getCurrentEra n - 1) % peers.length,
            Nat.mod_lt _ hlen⟩) := by
    intro nodeId
    obtain ⟨q, qs, rfl⟩ := List.exists_cons_of_ne_nil hne
    unfold NodeManager.shouldHandleTelegram
    simp only [List.get_eq_getElem]
    rw [List.getD_eq_getElem _ _ (Nat.mod_lt _ (by simp))]
  refine ⟨hera, hform, ?_, by decide, by decide, by decide, by decide⟩
  · refine ⟨peers.get ⟨(NodeManager.getCurrentEra n - 1) % peers.length,
      Nat.mod_lt _ hlen⟩, ⟨List.get_mem _ _ _, ?_⟩, ?_⟩
    · rw [hform]
      exact beq_self_eq_true _
    · intro q hq
      rw [hform q] at hq
      exact eq_of_beq hq.2

/-- Witness for C3: with peers `["A","B","C"]` and interval count `205`
(era 3), the designated handler is the peer at index 2. -/
theorem c3_era_rotation_witness :
    NodeManager.getCurrentEra 205 = 3
    ∧ (NodeManager.shouldHandleTelegram "C" ["A", "B", "C"] 205).1 = true := by
  have h := c3_era_rotation ["A", "B", "C"] 205 (by decide) (by decide)
  refine ⟨by rw [h.1], ?_⟩
  rw [h.2.1 "C"]
  decide

namespace Ledger

/-- The linkage checks of the integrity loop, index-wise: block `j` of `rest`
links to its predecessor in `prev :: rest` and carries height `start + j`. -/
lemma linksOk_of_forall (rest : List Block) :
    ∀ (prev : Block) (start : ℕ),
    (∀ j, ∀ hj : j < rest.length,
        (rest.get ⟨j, hj⟩).previous_hash =
          ((prev :: rest).get ⟨j, by simp; omega⟩).hash
        ∧ (rest.get ⟨j, hj⟩).block_height = start + j) →
    linksOk prev start rest = true := by
  induction rest with
  | nil => intro prev start _; rfl
  | cons b bs ih =>
      intro prev start hall
      have h0 := hall 0 (by simp)
      simp only [List.get_eq_getElem, List.getElem_cons_zero] at h0
      unfold linksOk
      rw [Bool.and_eq_true, Bool.and_eq_true]
      refine ⟨⟨?_, ?_⟩, ?_⟩
      · rw [h0.1]; exact beq_self_eq_true _
      · simp [h0.2]
      · refine ih b (start + 1) ?_
        intro j hj
        have hj1 : j + 1 < (b :: bs).length := by simp; omega
        have := hall (j + 1) hj1
        simp only [List.get_eq_getElem, List.getElem_cons_succ] at this ⊢
        refine ⟨this.1, by omega⟩

end Ledger


/-- Claim C8 (amended): `_verify_chain_integrity` returns true for every
non-empty chain whose first block has `previous_hash = "0"`, whose later
blocks each link to the stored hash of their predecessor AND carry
`block_height = i`; stored hashes are never recomputed from the payload. -/
theorem c8_verify_integrity_amended (chain : List Ledger.Block)
    (hne : chain ≠ [])
    (hgen : ∀ h0 : 0 < chain.length, (chain.get ⟨0, h0⟩).previous_hash = "0")
    (hlink : ∀ i, ∀ h : i < chain.length, 0 < i →
      (chain.get ⟨i, h⟩).previous_hash = (chain.get ⟨i - 1, by omega⟩).hash)
    (hheight : ∀ i, ∀ h : i < chain.length, 0 < i →
      (chain.get ⟨i, h⟩).block_height = i) :
    Ledger.verifyChainIntegrity chain = true := by
  obtain ⟨b0, rest, rfl⟩ := List.exists_cons_of_ne_nil hne
  unfold Ledger.verifyChainIntegrity
  rw [Bool.and_eq_true]
  constructor
  · have := hgen (by simp)
    simp only [List.get_eq_getElem, List.getElem_cons_zero] at this
    simp [this]
  · refine Ledger.linksOk_of_forall rest b0 1 ?_
    intro j hj
    have hj1 : j + 1 < (b0 :: rest).length := by simp; omega
    have h1 := hlink (j + 1) hj1 (by omega)
    have h2 := hheight (j + 1) hj1 (by omega)
    simp only [List.get_eq_getElem, List.getElem_cons_succ, Nat.add_sub_cancel] at h1 h2 ⊢
    exact ⟨h1, by omega⟩

/-- Counterexample for C8 as stated: a non-empty chain with genesis
`previous_hash = "0"` and correct hash linkage on which
`_verify_chain_integrity` nevertheless returns false, because the second
block's stored `block_height` is `0` instead of `1` (the claim omits the
height check performed by the loop). -/
theorem c8_verify_integrity_counterexample :
    ((Ledger.c8ChainBadHeight.get ⟨0, by decide⟩).previous_hash = "0"
      ∧ (Ledger.c8ChainBadHeight.get ⟨1, by decide⟩).previous_hash =
          (Ledger.c8ChainBadHeight.get ⟨0, by decide⟩).hash)
    ∧ Ledger.verifyChainIntegrity Ledger.c8ChainBadHeight = false := by
  decide

/-- Witness for C8 (amended): the same chain with the heights fixed passes. -/
theorem c8_verify_integrity_amended_witness :
    Ledger.verifyChainIntegrity
      [{ timestamp := 0, data := "genesis", previous_hash := "0",
         target_distance := none, winner_id := none, travel_distance := none,
         miner_address := none, block_height := 0, hash := "h0", reward := 1000 },
       { timestamp := 1, data := "next", previous_hash := "h0",
         target_distance := none, winner_id := none, travel_distance := none,
         miner_address := none, block_height := 1, hash := "h1", reward := 1000 }] = true := by
  refine c8_verify_integrity_amended _ (by decide) ?_ ?_ ?_
  · intro h0; rfl
  · intro i h hi
    have h2 : i < 2 := by simpa using h
    interval_cases i
    rfl
  · intro i h hi
    have h2 : i < 2 := by simpa using h
    interval_cases i
    rfl

namespace Ledger

lemma linksOk_congr {rest1 rest2 : List Block}
    (hr : List.Forall₂ (fun a b =>
      a.previous_hash = b.previous_hash ∧ a.hash = b.hash ∧
        a.block_height = b.block_height) rest1 rest2) :
    ∀ (prev1 prev2 : Block), prev1.hash = prev2.hash → ∀ i,
      linksOk prev1 i rest1 = linksOk prev2 i rest2 := by
  induction hr with
  | nil => intro _ _ _ _; rfl
  | cons hab hr ih =>
      intro prev1 prev2 hp i
      unfold linksOk
      rw [hab.1, hp, hab.2.2, ih _ _ hab.2.1]

end Ledger


/-- Claim C10: `calculate_hash` reads only `timestamp`, `data`,
`previous_hash` and `target_distance` — two blocks agreeing on those four
fields hash identically whatever their `winner_id`, `travel_distance`,
`miner_address`, `block_height` or `reward`; consequently the ledger's
integrity check cannot distinguish chains that differ only in those
unbound fields. -/
theorem c10_hash_binds_only_payload :
    (∀ b1 b2 : Ledger.Block, b1.timestamp = b2.timestamp → b1.data = b2.data →
      b1.previous_hash = b2.previous_hash →
      b1.target_distance = b2.target_distance →
      b1.calculate_hash = b2.calculate_hash)
    ∧ (∀ c1 c2 : List Ledger.Block, Ledger.SameLinkFields c1 c2 →
      Ledger.verifyChainIntegrity c1 = Ledger.verifyChainIntegrity c2) := by
  constructor
  · intro b1 b2 h1 h2 h3 h4
    unfold Ledger.Block.calculate_hash Ledger.calculateHash
    rw [h1, h2, h3, h4]
  · intro c1 c2 hc
    induction hc with
    | nil => rfl
    | cons hab hr _ =>
        simp only [Ledger.verifyChainIntegrity]
        rw [hab.1, Ledger.linksOk_congr hr _ _ hab.2.1]

/-- Witness for C10: two blocks sharing the four hashed fields but with
different winners, rewards, addresses and heights hash identically, and the
integrity verdict is unchanged when only such fields differ. -/
theorem c10_hash_binds_only_payload_witness :
    (Ledger.Block.make 1 "d" "p" (some 2) (some 5) (some 3) (some "m1") (some 7)).calculate_hash
      = (Ledger.Block.make 1 "d" "p" (some 2) (some 9) (some 8) (some "m2") (some 7)).calculate_hash
    ∧ Ledger.verifyChainIntegrity
        [{ timestamp := 0, data := "a", previous_hash := "0",
           target_distance := none, winner_id := some 1, travel_distance := none,
           miner_address := none, block_height := 0, hash := "h0", reward := 1000 }]
      = Ledger.verifyChainIntegrity
        [{ timestamp := 9, data := "b", previous_hash := "0",
           target_distance := some 2, winner_id := some 2, travel_distance := some 3,
           miner_address := some "m", block_height := 0, hash := "h0", reward := 0 }] := by
  constructor
  · exact c10_hash_binds_only_payload.1 _ _ rfl rfl rfl rfl
  · exact c10_hash_binds_only_payload.2 _ _
      (List.Forall₂.cons ⟨rfl, rfl, rfl⟩ List.Forall₂.nil)

namespace Ledger

/-- When the live file is corrupt in a backup-reaching way,
`load_blockchain_state` falls through to its backup path. -/
lemma load_corrupt_via_backup (fs : FS) (now : ℚ) (h : LiveCorrupt fs) :
    loadBlockchainState fs now = loadViaBackup fs now := by
  rcases h with hl | hl | ⟨ds, c, hl, hne, hd, hv⟩
  · simp [loadBlockchainState, loadFromFile, FileState.existsOnDisk, hl]
  · simp [loadBlockchainState, loadFromFile, FileState.existsOnDisk, hl]
  · simp [loadBlockchainState, loadFromFile, FileState.existsOnDisk,
      hl, hne, hd, hv]

/-- `_recover_from_backup` succeeds on a non-empty backup whose records all
deserialize into a chain passing the integrity check. -/
lemma recoverFromBackup_eq_some (fs : FS) (bds : List (Option Block))
    (bc : List Block) (hb : fs.backup = .parsed bds) (hne : bds ≠ [])
    (hd : deserializeChain bds = some bc)
    (hv : verifyChainIntegrity bc = true) :
    recoverFromBackup fs = some bc := by
  simp [recoverFromBackup, loadFromFile, FileState.existsOnDisk,
    hb, hne, hd, hv]

/-- `_recover_from_backup` fails on every backup state in `BackupFails`. -/
lemma recoverFromBackup_eq_none (fs : FS) (h : BackupFails fs) :
    recoverFromBackup fs = none := by
  rcases h with hb | hb | hb | ⟨bds, hb, hd⟩ | ⟨bds, bc, hb, hne, hd, hv⟩
  · simp [recoverFromBackup, FileState.existsOnDisk, hb]
  · simp [recoverFromBackup, loadFromFile, FileState.existsOnDisk, hb]
  · simp [recoverFromBackup, loadFromFile, FileState.existsOnDisk, hb]
  · have hne : bds ≠ [] := by
      rintro rfl
      simp [deserializeChain, deserializeFrom] at hd
    simp [recoverFromBackup, loadFromFile, FileState.existsOnDisk,
      hb, hne, hd]
  · simp [recoverFromBackup, loadFromFile, FileState.existsOnDisk,
      hb, hne, hd, hv]

end Ledger

/-- Claim C4, original form, refuted: a live file that is valid JSON but
holds one block record on which `Block.from_dict` raises is a corrupt live
file in the claim's sense, and the backup next to it recovers to a valid
chain, yet `load_blockchain_state` installs a fresh genesis chain without
adopting the backup: the `_deserialize_chain` raise escapes to the outer
`except` handler and `_recover_from_backup` is never called. -/
theorem c4_load_recovery_counterexample :
    Ledger.recoverFromBackup Ledger.c4FsBadRecord = some [Ledger.c4BackupBlock]
    ∧ (Ledger.loadBlockchainState Ledger.c4FsBadRecord 3).1 =
        [Ledger.createGenesisBlock 3] := by
  exact ⟨rfl, rfl⟩

/-- Claim C4 (amended): when the live ledger file is corrupt by being
unparsable, parsing to an empty list, or deserializing to a chain that fails
the integrity check, `load_blockchain_state` adopts a valid backup chain and
re-persists it as the live file, and falls back to a fresh persisted genesis
chain when the backup also fails; but when the live file parses as JSON and
a block record makes `_deserialize_chain` raise, a fresh genesis chain is
installed directly, whatever the backup holds. -/
theorem c4_load_recovery_amended (fs : Ledger.FS) (now : ℚ) :
    (Ledger.LiveCorrupt fs →
      ∀ bds bc, fs.backup = .parsed bds → bds ≠ [] →
        Ledger.deserializeChain bds = some bc →
        Ledger.verifyChainIntegrity bc = true →
        Ledger.loadBlockchainState fs now = (bc, Ledger.saveBlockchain fs bc))
    ∧ (Ledger.LiveCorrupt fs → Ledger.BackupFails fs →
        Ledger.loadBlockchainState fs now =
          ([Ledger.createGenesisBlock now],
            Ledger.saveBlockchain fs [Ledger.createGenesisBlock now]))
    ∧ (∀ ds, fs.live = .parsed ds → Ledger.deserializeChain ds = none →
        Ledger.loadBlockchainState fs now =
          ([Ledger.createGenesisBlock now],
            Ledger.saveBlockchain fs [Ledger.createGenesisBlock now])) := by
  refine ⟨?_, ?_, ?_⟩
  · intro hcor bds bc hb hne hd hv
    rw [Ledger.load_corrupt_via_backup fs now hcor]
    simp [Ledger.loadViaBackup,
      Ledger.recoverFromBackup_eq_some fs bds bc hb hne hd hv]
  · intro hcor hbf
    rw [Ledger.load_corrupt_via_backup fs now hcor]
    simp [Ledger.loadViaBackup, Ledger.recoverFromBackup_eq_none fs hbf]
  · intro ds hl hd
    have hne : ds ≠ [] := by
      rintro rfl
      simp [Ledger.deserializeChain, Ledger.deserializeFrom] at hd
    simp [Ledger.loadBlockchainState, Ledger.loadFromFile,
      Ledger.FileState.existsOnDisk, hl, hne, hd]

/-- Witness for C4 (amended): an unparsable live file with a valid one-block
backup is recovered from the backup; with both files unparsable a fresh
genesis chain is persisted; a live file with a malformed block record yields
a fresh genesis chain even though its backup is valid. -/
theorem c4_load_recovery_amended_witness :
    Ledger.loadBlockchainState Ledger.c4FsGood 3 =
      ([Ledger.c4BackupBlock],
        Ledger.saveBlockchain Ledger.c4FsGood [Ledger.c4BackupBlock])
    ∧ Ledger.loadBlockchainState Ledger.c4FsBad 3 =
      ([Ledger.createGenesisBlock 3],
        Ledger.saveBlockchain Ledger.c4FsBad [Ledger.createGenesisBlock 3])
    ∧ Ledger.loadBlockchainState Ledger.c4FsBadRecord 3 =
      ([Ledger.createGenesisBlock 3],
        Ledger.saveBlockchain Ledger.c4FsBadRecord
          [Ledger.createGenesisBlock 3]) := by
  refine ⟨?_, ?_, ?_⟩
  · exact (c4_load_recovery_amended Ledger.c4FsGood 3).1 (Or.inl rfl)
      [some Ledger.c4BackupBlock] [Ledger.c4BackupBlock] rfl (by decide)
      rfl (by decide)
  · exact (c4_load_recovery_amended Ledger.c4FsBad 3).2.1 (Or.inl rfl)
      (Or.inr (Or.inl rfl))
  · exact (c4_load_recovery_amended Ledger.c4FsBadRecord 3).2.2 [none] rfl rfl

/-- Claim C5: `calculate_obfuscated_distance` returns `None` exactly when the
zone identifiers differ, and otherwise the kilometer value obtained by
unscaling the planar delta and applying the fixed per-degree constants
`111.0` and `111.0 * cos(radians(45))`. -/
theorem c5_distance_zone_gate (o : Mining.CoordinateObfuscator)
    (c1 c2 : Mining.ObfuscatedCoordinate) :
    (c1.zone_hash ≠ c2.zone_hash →
      o.calculateObfuscatedDistance c1 c2 = none)
    ∧ (c1.zone_hash = c2.zone_hash →
      o.calculateObfuscatedDistance c1 c2 =
        some (Real.sqrt
          ((((c2.x - c1.x : ℚ) : ℝ) / 100000 * (111 * Real.cos (Mining.radians 45))) ^ 2
            + (((c2.y - c1.y : ℚ) : ℝ) / 100000 * 111) ^ 2))) := by
  constructor
  · intro h
    unfold Mining.CoordinateObfuscator.calculateObfuscatedDistance
    rw [if_pos h]
  · intro h
    unfold Mining.CoordinateObfuscator.calculateObfuscatedDistance
    rw [if_neg (not_not_intro h)]

/-- Witness for C5: a cross-zone pair yields `None`; a same-zone pair yields
the planar kilometer value. -/
theorem c5_distance_zone_gate_witness :
    (Mining.CoordinateObfuscator.make "s").calculateObfuscatedDistance
        ⟨0, 0, "za", 0, "u1"⟩ ⟨1, 2, "zb", 0, "u2"⟩ = none
    ∧ (Mining.CoordinateObfuscator.make "s").calculateObfuscatedDistance
        ⟨0, 0, "za", 0, "u1"⟩ ⟨3, 4, "za", 0, "u3"⟩ =
        some (Real.sqrt
          ((((3 - 0 : ℚ) : ℝ) / 100000 * (111 * Real.cos (Mining.radians 45))) ^ 2
            + (((4 - 0 : ℚ) : ℝ) / 100000 * 111) ^ 2)) := by
  constructor
  · exact (c5_distance_zone_gate _ _ _).1 (by decide)
  · exact (c5_distance_zone_gate _ _ _).2 rfl

/-- Counterexample for C6 as stated: `finalize_interval` does NOT clear the
staged map — after finalizing an active interval with one staged entry the
staged map still holds that entry (it is only cleared by the next `start`). -/
theorem c6_finalize_counterexample :
    Mining.c6Interval.is_active = true
    ∧ Mining.c6Interval.staged_coordinates ≠ []
    ∧ Mining.c6Interval.finalizeInterval.1.staged_coordinates
        = Mining.c6Interval.staged_coordinates
    ∧ Mining.c6Interval.finalizeInterval.1.staged_coordinates ≠ [] := by
  refine ⟨rfl, by decide, rfl, by decide⟩

/-- Claim C6 (amended): for every active mining interval,
`finalize_interval` deactivates the interval, returns the finalized map in
which every staged token maps to an entry whose `start_coords` and
`end_coords` both equal the staged coordinate, stores that map in
`finalized_coordinates` — and leaves the staged map unchanged (it is cleared
by the next `start`, not by `finalize_interval`). -/
theorem c6_finalize_amended (st : Mining.MiningInterval)
    (hact : st.is_active = true) :
    st.finalizeInterval.1.is_active = false
    ∧ (∀ k c, (k, c) ∈ st.staged_coordinates →
        (k, ⟨c, c, c.timestamp⟩) ∈ st.finalizeInterval.2)
    ∧ Mining.mapKeys st.finalizeInterval.2 =
        st.staged_coordinates.map (fun p => p.1)
    ∧ st.finalizeInterval.1.finalized_coordinates = st.finalizeInterval.2
    ∧ st.finalizeInterval.1.staged_coordinates = st.staged_coordinates := by
  refine ⟨rfl, ?_, ?_, rfl, rfl⟩
  · intro k c hmem
    unfold Mining.MiningInterval.finalizeInterval
    simp only
    exact List.mem_map.mpr ⟨(k, c), hmem, rfl⟩
  · unfold Mining.mapKeys Mining.MiningInterval.finalizeInterval
    simp

/-- Witness for C6 (amended), at the same concrete active interval. -/
theorem c6_finalize_amended_witness :
    Mining.c6Interval.finalizeInterval.1.is_active = false
    ∧ ("tok", (⟨⟨1, 2, "z", 0, "tok"⟩, ⟨1, 2, "z", 0, "tok"⟩, 0⟩ : Mining.FinalizedEntry))
        ∈ Mining.c6Interval.finalizeInterval.2
    ∧ Mining.c6Interval.finalizeInterval.1.staged_coordinates
        = Mining.c6Interval.staged_coordinates := by
  have h := c6_finalize_amended Mining.c6Interval rfl
  refine ⟨h.1, ?_, h.2.2.2.2⟩
  exact h.2.1 "tok" ⟨1, 2, "z", 0, "tok"⟩ (by decide)

namespace Mining

lemma dwStep_spec (ci : MiningInterval) (prev curr : FinalizedMap) (target : ℝ)
    (acc : Option Winner) (h : String) :
    (∀ v, dwStep ci prev curr target acc h = some v →
      ((∀ u, acc = some u → u.difference = |u.travel_distance - target|) →
          v.difference = |v.travel_distance - target|)
      ∧ (∀ u, acc = some u → v.difference ≤ u.difference))
    ∧ (∀ u, acc = some u → ∃ v, dwStep ci prev curr target acc h = some v)
    ∧ (∀ o pe ce travel, ci.obfuscator = some o →
        lookupA prev h = some pe → lookupA curr h = some ce →
        o.calculateObfuscatedDistance pe.end_coords ce.end_coords = some travel →
        ∃ v, dwStep ci prev curr target acc h = some v ∧
          v.difference ≤ |travel - target|) := by
  rcases hpe : lookupA prev h with _ | pe <;>
    rcases hce : lookupA curr h with _ | ce <;>
    rcases hobf : ci.obfuscator with _ | o <;>
    simp only [dwStep, hpe, hce, hobf]
  case none.none.none | none.none.some | none.some.none | none.some.some
    | some.none.none | some.none.some | some.some.none =>
    refine ⟨?_, ?_, ?_⟩
    · intro v hv
      refine ⟨fun hwf => hwf v hv, fun u hu => ?_⟩
      rw [hv] at hu
      cases hu
      exact le_refl _
    · intro u hu
      exact ⟨u, hu⟩
    · intro o2 pe2 ce2 travel ho2 hpe2 hce2 hdist2
      first
      | exact Option.noConfusion hpe2
      | exact Option.noConfusion hce2
      | exact Option.noConfusion ho2
  case some.some.some =>
    rcases hdist : o.calculateObfuscatedDistance pe.end_coords ce.end_coords
        with _ | travel <;> simp only [hdist]
    · refine ⟨?_, ?_, ?_⟩
      · intro v hv
        refine ⟨fun hwf => hwf v hv, fun u hu => ?_⟩
        rw [hv] at hu
        cases hu
        exact le_refl _
      · intro u hu
        exact ⟨u, hu⟩
      · intro o2 pe2 ce2 travel ho2 hpe2 hce2 hdist2
        obtain rfl : o2 = o := (Option.some.inj ho2).symm
        obtain rfl : pe2 = pe := (Option.some.inj hpe2).symm
        obtain rfl : ce2 = ce := (Option.some.inj hce2).symm
        exact absurd (hdist.symm.trans hdist2) (by simp)
    · rcases acc with _ | w <;> simp only
      · refine ⟨?_, ?_, ?_⟩
        · intro v hv
          cases hv
          exact ⟨fun _ => rfl, fun u hu => by cases hu⟩
        · intro u hu
          cases hu
        · intro o2 pe2 ce2 travel2 ho2 hpe2 hce2 hdist2
          obtain rfl : o2 = o := (Option.some.inj ho2).symm
          obtain rfl : pe2 = pe := (Option.some.inj hpe2).symm
          obtain rfl : ce2 = ce := (Option.some.inj hce2).symm
          obtain rfl : travel2 = travel := Option.some.inj (hdist2.symm.trans hdist)
          exact ⟨_, rfl, le_refl _⟩
      · split_ifs with hlt
        · refine ⟨?_, ?_, ?_⟩
          · intro v hv
            cases hv
            exact ⟨fun _ => rfl, fun u hu => by cases hu; exact le_of_lt hlt⟩
          · intro u hu
            exact ⟨_, rfl⟩
          · intro o2 pe2 ce2 travel2 ho2 hpe2 hce2 hdist2
            obtain rfl : o2 = o := (Option.some.inj ho2).symm
            obtain rfl : pe2 = pe := (Option.some.inj hpe2).symm
            obtain rfl : ce2 = ce := (Option.some.inj hce2).symm
            obtain rfl : travel2 = travel := Option.some.inj (hdist2.symm.trans hdist)
            exact ⟨_, rfl, le_refl _⟩
        · refine ⟨?_, ?_, ?_⟩
          · intro v hv
            cases hv
            exact ⟨fun hwf => hwf w rfl, fun u hu => by cases hu; exact le_refl _⟩
          · intro u hu
            exact ⟨w, rfl⟩
          · intro o2 pe2 ce2 travel2 ho2 hpe2 hce2 hdist2
            obtain rfl : o2 = o := (Option.some.inj ho2).symm
            obtain rfl : pe2 = pe := (Option.some.inj hpe2).symm
            obtain rfl : ce2 = ce := (Option.some.inj hce2).symm
            obtain rfl : travel2 = travel := Option.some.inj (hdist2.symm.trans hdist)
            exact ⟨w, rfl, not_lt.mp hlt⟩

lemma dwFold_spec (ci : MiningInterval) (prev curr : FinalizedMap) (target : ℝ)
    (l : List String) :
    ∀ (acc : Option Winner) (w : Winner),
      l.foldl (dwStep ci prev curr target) acc = some w →
      ((∀ u, acc = some u → u.difference = |u.travel_distance - target|) →
          w.difference = |w.travel_distance - target|)
      ∧ (∀ u, acc = some u → w.difference ≤ u.difference)
      ∧ (∀ h, h ∈ l → ∀ o pe ce travel, ci.obfuscator = some o →
          lookupA prev h = some pe → lookupA curr h = some ce →
          o.calculateObfuscatedDistance pe.end_coords ce.end_coords = some travel →
          w.difference ≤ |travel - target|) := by
  induction l with
  | nil =>
      intro acc w hf
      simp only [List.foldl_nil] at hf
      refine ⟨fun hwf => hwf w hf, fun u hu => ?_,
        fun h hh => absurd hh (List.not_mem_nil _)⟩
      rw [hf] at hu
      cases hu
      exact le_refl _
  | cons r rs ih =>
      intro acc w hf
      simp only [List.foldl_cons] at hf
      obtain ⟨ihwf, ihmono, ihlist⟩ := ih (dwStep ci prev curr target acc r) w hf
      obtain ⟨hstep1, hstep2, hstep3⟩ := dwStep_spec ci prev curr target acc r
      refine ⟨?_, ?_, ?_⟩
      · intro hwf
        exact ihwf (fun v hv => (hstep1 v hv).1 hwf)
      · intro u hu
        obtain ⟨v, hv⟩ := hstep2 u hu
        exact le_trans (ihmono v hv) ((hstep1 v hv).2 u hu)
      · intro h hh o pe ce travel ho hpe hce hdist
        rcases List.mem_cons.mp hh with rfl | hh2
        · obtain ⟨v, hv, hvle⟩ := hstep3 o pe ce travel ho hpe hce hdist
          exact le_trans (ihmono v hv) hvle
        · exact ihlist h hh2 o pe ce travel ho hpe hce hdist

end Mining


/-- Claim C7 (amended): in `determine_winner`, tokens whose computed travel
distance is `None` are skipped, and among the remaining common tokens the
returned winner has minimal `|travel - target_distance|`.  (No
maximum-plausible-travel cap exists in the code: see the counterexample,
where an implausibly large travel still wins.) -/
theorem c7_winner_minimality (prev curr : Mining.FinalizedMap) (target : ℝ)
    (pint cint : Mining.MiningInterval) (w : Mining.Winner)
    (hw : Mining.determineWinner prev curr target (some pint) (some cint) = some w) :
    w.difference = |w.travel_distance - target|
    ∧ (∀ h o pe ce travel, h ∈ Mining.commonUserHashes prev curr →
        cint.obfuscator = some o →
        Mining.lookupA prev h = some pe → Mining.lookupA curr h = some ce →
        o.calculateObfuscatedDistance pe.end_coords ce.end_coords = some travel →
        w.difference ≤ |travel - target|) := by
  unfold Mining.determineWinner at hw
  split_ifs at hw with h1
  dsimp only at hw
  split_ifs at hw with h2
  obtain ⟨hwf, hmono, hlist⟩ :=
    Mining.dwFold_spec cint prev curr target
      (Mining.commonUserHashes prev curr) none w hw
  refine ⟨hwf (fun u hu => by cases hu), ?_⟩
  intro h o pe ce travel hh ho hpe hce hdist
  exact hlist h hh o pe ce travel ho hpe hce hdist

namespace Mining

lemma c7_travel_eval :
    (CoordinateObfuscator.make "s").calculateObfuscatedDistance c7CoordA c7CoordB
      = some (5550000 * Real.sqrt 2) := by
  unfold CoordinateObfuscator.calculateObfuscatedDistance
  rw [if_neg (not_not_intro
    (show c7CoordA.zone_hash = c7CoordB.zone_hash from rfl))]
  dsimp only
  have hrad : radians 45 = Real.pi / 4 := by
    unfold radians
    ring
  have harg :
      (((c7CoordB.x - c7CoordA.x : ℚ) : ℝ) / 100000 *
          (111 * Real.cos (radians 45))) ^ 2 +
        (((c7CoordB.y - c7CoordA.y : ℚ) : ℝ) / 100000 * 111) ^ 2
      = (5550000 * Real.sqrt 2) ^ 2 := by
    rw [hrad, Real.cos_pi_div_four]
    have hx : ((c7CoordB.x - c7CoordA.x : ℚ) : ℝ) = 10000000000 := by
      norm_num [c7CoordA, c7CoordB]
    have hy : ((c7CoordB.y - c7CoordA.y : ℚ) : ℝ) = 0 := by
      norm_num [c7CoordA, c7CoordB]
    rw [hx, hy]
    ring
  rw [harg, Real.sqrt_sq (by positivity)]

lemma c7_winner_eval :
    determineWinner c7Prev c7Curr (5 / 100) (some c7Interval) (some c7Interval)
      = some c7Winner := by
  unfold determineWinner
  rw [if_neg (by simp [c7Prev, c7Curr])]
  dsimp only
  rw [if_neg (by simp [commonUserHashes, c7Prev, c7Curr, mapKeys, lookupA])]
  have hcom : commonUserHashes c7Prev c7Curr = ["a"] := by decide
  rw [hcom]
  simp only [List.foldl_cons, List.foldl_nil]
  unfold dwStep
  rw [show lookupA c7Prev "a" = some ⟨c7CoordA, c7CoordA, 0⟩ from rfl]
  rw [show lookupA c7Curr "a" = some ⟨c7CoordB, c7CoordB, 0⟩ from rfl]
  rw [show c7Interval.obfuscator = some (CoordinateObfuscator.make "s") from rfl]
  dsimp only
  rw [c7_travel_eval]
  rfl

end Mining


/-- Counterexample for C7 as stated: no maximum-plausible-travel cap is
applied — a token whose computed travel distance is about 7.8 million
kilometers (far beyond any plausible travel) is not skipped and wins. -/
theorem c7_no_travel_cap_counterexample :
    Mining.determineWinner Mining.c7Prev Mining.c7Curr (5 / 100)
        (some Mining.c7Interval) (some Mining.c7Interval) = some Mining.c7Winner
    ∧ Mining.c7Winner.travel_distance > 10 ^ 6 := by
  refine ⟨Mining.c7_winner_eval, ?_⟩
  have h2 : (1 : ℝ) ≤ Real.sqrt 2 := by
    rw [show (1 : ℝ) = Real.sqrt 1 from Real.sqrt_one.symm]
    exact Real.sqrt_le_sqrt (by norm_num)
  show (5550000 : ℝ) * Real.sqrt 2 > 10 ^ 6
  nlinarith

/-- Witness for C7 (amended): on the concrete maps the returned winner's
difference is minimal among the common tokens with a computable distance. -/
theorem c7_winner_minimality_witness :
    Mining.c7Winner.difference =
      |Mining.c7Winner.travel_distance - (5 / 100 : ℝ)|
    ∧ Mining.c7Winner.difference ≤ |5550000 * Real.sqrt 2 - (5 / 100 : ℝ)| := by
  have h := c7_winner_minimality Mining.c7Prev Mining.c7Curr (5 / 100)
    Mining.c7Interval Mining.c7Interval Mining.c7Winner Mining.c7_winner_eval
  refine ⟨h.1, ?_⟩
  exact h.2 "a" (Mining.CoordinateObfuscator.make "s")
    ⟨Mining.c7CoordA, Mining.c7CoordA, 0⟩ ⟨Mining.c7CoordB, Mining.c7CoordB, 0⟩
    (5550000 * Real.sqrt 2) (by decide) rfl rfl rfl Mining.c7_travel_eval

/-- Claim C2 (code bug): the participant who submitted in both intervals is
keyed by `sha256(f"{user_id}:{interval_number}:{interval_salt}")[:16]`, and
both the interval number and the salt change between intervals, so the two
finalized maps share no token and `determine_winner` returns `None` — the
participant is never selected, although both maps are non-empty and there is
no competitor.  This contradicts the code's own stated intent (the token is
documented as "Hashed user ID for linking intervals", and the winner loop
looks for "users who participated in both intervals"). -/
theorem c2_cross_interval_winner_code_bug :
    Mining.c2Final1.2 ≠ [] ∧ Mining.c2Final2.2 ≠ []
    ∧ Mining.commonUserHashes Mining.c2Final1.2 Mining.c2Final2.2 = []
    ∧ Mining.determineWinner Mining.c2Final1.2 Mining.c2Final2.2 (5 / 100)
        (some Mining.c2Final1.1) (some Mining.c2Final2.1) = none := by
  have hcom : Mining.commonUserHashes Mining.c2Final1.2 Mining.c2Final2.2 = [] := by
    decide
  have hne1 : (Mining.c2Final1.2).isEmpty = false := by decide
  have hne2 : (Mining.c2Final2.2).isEmpty = false := by decide
  refine ⟨by decide, by decide, hcom, ?_⟩
  unfold Mining.determineWinner
  rw [if_neg (by rw [hne1, hne2]; simp)]
  dsimp only
  rw [hcom]
  simp

namespace Mining

/-- `arctan` is dominated by its argument on the nonnegative reals. -/
lemma arctan_le_self {x : ℝ} (hx : 0 ≤ x) : Real.arctan x ≤ x := by
  rcases eq_or_lt_of_le hx with h | h
  · rw [← h, Real.arctan_zero]
  · have h1 : 0 < Real.arctan x := by
      have := Real.arctan_strictMono h
      rwa [Real.arctan_zero] at this
    have h2 : Real.arctan x < Real.pi / 2 := Real.arctan_lt_pi_div_two x
    have h3 := Real.lt_tan h1 h2
    rw [Real.tan_arctan] at h3
    exact le_of_lt h3

/-- `math.radians(45)` is `π / 4`. -/
lemma radians_45 : radians 45 = Real.pi / 4 := by
  unfold radians
  ring

/-- For a tiny `a`, the `atan2`-based angle of the Haversine formula is
trapped between `0` and `√a / 0.999`. -/
lemma atan2_sqrt_bounds (a : ℝ) (ha0 : 0 ≤ a) (ha1 : a ≤ 1 / 1000) :
    0 ≤ atan2 (Real.sqrt a) (Real.sqrt (1 - a))
    ∧ atan2 (Real.sqrt a) (Real.sqrt (1 - a)) ≤ Real.sqrt a / (999 / 1000) := by
  have hsq : (999 / 1000 : ℝ) ≤ Real.sqrt (1 - a) :=
    Real.le_sqrt_of_sq_le (by nlinarith)
  have hpos : (0 : ℝ) < Real.sqrt (1 - a) := by linarith
  unfold atan2
  rw [if_pos hpos]
  have hq0 : 0 ≤ Real.sqrt a / Real.sqrt (1 - a) :=
    div_nonneg (Real.sqrt_nonneg a) (le_of_lt hpos)
  have hat0 : 0 ≤ Real.arctan (Real.sqrt a / Real.sqrt (1 - a)) := by
    have := Real.arctan_strictMono.monotone hq0
    rwa [Real.arctan_zero] at this
  refine ⟨hat0, ?_⟩
  calc Real.arctan (Real.sqrt a / Real.sqrt (1 - a))
      ≤ Real.sqrt a / Real.sqrt (1 - a) := arctan_le_self hq0
    _ ≤ Real.sqrt a / (999 / 1000) := by gcongr

lemma c9_obf_eval :
    c9o.calculateObfuscatedDistance c9A c9B = some (111 * Real.sqrt 2 / 2000) := by
  have hz : c9A.zone_hash = c9B.zone_hash := by decide
  have hdx : c9B.x - c9A.x = 100 := by decide
  have hdy : c9B.y - c9A.y = 0 := by decide
  unfold CoordinateObfuscator.calculateObfuscatedDistance
  rw [if_neg (not_not_intro hz)]
  dsimp only
  have harg : (((c9B.x - c9A.x : ℚ) : ℝ) / 100000 * (111 * Real.cos (radians 45))) ^ 2
      + (((c9B.y - c9A.y : ℚ) : ℝ) / 100000 * 111) ^ 2
      = (111 * Real.sqrt 2 / 2000) ^ 2 := by
    rw [hdx, hdy, radians_45, Real.cos_pi_div_four]
    push_cast
    ring
  rw [harg, Real.sqrt_sq (by positivity)]

lemma c9_hav_bounds : 0 ≤ c9hav ∧ c9hav ≤ 7 / 100 := by
  have hπlo := Real.pi_gt_d6
  have hπhi := Real.pi_lt_d6
  have key : ∀ E : ℝ, 0 ≤ E → E ≤ 1 / 1000 →
      Real.sqrt E ≤ 544110 / 10 ^ 11 →
      0 ≤ 6371 * (2 * atan2 (Real.sqrt E) (Real.sqrt (1 - E)))
      ∧ 6371 * (2 * atan2 (Real.sqrt E) (Real.sqrt (1 - E))) ≤ 7 / 100 := by
    intro E hE0 hE1 hEs
    obtain ⟨hl, hu⟩ := atan2_sqrt_bounds E hE0 hE1
    constructor
    · positivity
    · calc 6371 * (2 * atan2 (Real.sqrt E) (Real.sqrt (1 - E)))
          ≤ 6371 * (2 * (Real.sqrt E / (999 / 1000))) := by gcongr
        _ ≤ 6371 * (2 * ((544110 / 10 ^ 11) / (999 / 1000))) := by gcongr
        _ ≤ 7 / 100 := by norm_num
  have hφlo : (9076582 : ℝ) / 10 ^ 7 ≤ radians (52005 / 1000) := by
    unfold radians
    nlinarith
  have hφhi : radians ((52005 : ℝ) / 1000) ≤ 9076586 / 10 ^ 7 := by
    unfold radians
    nlinarith
  have hφabs : |radians ((52005 : ℝ) / 1000)| ≤ 1 := by
    rw [abs_le]
    constructor <;> nlinarith
  have hcos0 : 0 ≤ Real.cos (radians ((52005 : ℝ) / 1000)) := by
    apply Real.cos_nonneg_of_mem_Icc
    constructor <;> nlinarith
  have hcosub : Real.cos (radians ((52005 : ℝ) / 1000)) ≤ 6235 / 10 ^ 4 := by
    have hb := Real.cos_bound hφabs
    rw [abs_le] at hb
    have h1 : Real.cos (radians ((52005 : ℝ) / 1000)) ≤
        1 - radians ((52005 : ℝ) / 1000) ^ 2 / 2 +
          |radians ((52005 : ℝ) / 1000)| ^ 4 * (5 / 96) := by linarith [hb.2]
    rw [abs_of_nonneg (by nlinarith : (0:ℝ) ≤ radians ((52005 : ℝ) / 1000))] at h1
    have hsq_lo : ((9076582 : ℝ) / 10 ^ 7) ^ 2 ≤ radians ((52005 : ℝ) / 1000) ^ 2 := by
      nlinarith
    have hsq_hi : radians ((52005 : ℝ) / 1000) ^ 2 ≤ ((9076586 : ℝ) / 10 ^ 7) ^ 2 := by
      nlinarith
    have hp4 : radians ((52005 : ℝ) / 1000) ^ 4 ≤ ((9076586 : ℝ) / 10 ^ 7) ^ 4 := by
      nlinarith [hsq_hi, sq_nonneg (radians ((52005 : ℝ) / 1000))]
    nlinarith [hsq_lo, hp4]
  have hδ : (radians ((4001 : ℝ) / 1000) - radians 4) / 2 = Real.pi / 360000 := by
    unfold radians
    ring
  have hsin0 : 0 ≤ Real.sin (Real.pi / 360000) := by
    apply Real.sin_nonneg_of_nonneg_of_le_pi <;> nlinarith
  have hsinub : Real.sin (Real.pi / 360000) ≤ 87267 / 10 ^ 10 := by
    have h1 : Real.sin (Real.pi / 360000) < Real.pi / 360000 :=
      Real.sin_lt (by nlinarith)
    nlinarith
  unfold c9hav calculate_distance
  dsimp only
  rw [sub_self, zero_div, Real.sin_zero, hδ,
    show ((0 : ℝ)) ^ 2 = 0 from by norm_num, zero_add]
  have hcc : Real.cos (radians ((52005 : ℝ) / 1000)) *
      Real.cos (radians ((52005 : ℝ) / 1000)) ≤ ((6235 : ℝ) / 10 ^ 4) ^ 2 := by
    nlinarith
  have hss : Real.sin (Real.pi / 360000) ^ 2 ≤ ((87267 : ℝ) / 10 ^ 10) ^ 2 := by
    nlinarith
  have hprod : Real.cos (radians ((52005 : ℝ) / 1000)) *
      Real.cos (radians ((52005 : ℝ) / 1000)) *
      Real.sin (Real.pi / 360000) ^ 2 ≤
        ((6235 : ℝ) / 10 ^ 4) ^ 2 * ((87267 : ℝ) / 10 ^ 10) ^ 2 :=
    mul_le_mul hcc hss (sq_nonneg _) (by positivity)
  refine key _ ?_ ?_ ?_
  · exact mul_nonneg (mul_nonneg hcos0 hcos0) (sq_nonneg _)
  · nlinarith [hprod]
  · have ha : Real.cos (radians ((52005 : ℝ) / 1000)) *
        Real.cos (radians ((52005 : ℝ) / 1000)) *
        Real.sin (Real.pi / 360000) ^ 2 ≤ (544110 / 10 ^ 11) ^ 2 := by
      nlinarith [hprod]
    calc Real.sqrt (Real.cos (radians ((52005 : ℝ) / 1000)) *
          Real.cos (radians ((52005 : ℝ) / 1000)) *
          Real.sin (Real.pi / 360000) ^ 2)
        ≤ Real.sqrt ((544110 / 10 ^ 11) ^ 2) := Real.sqrt_le_sqrt ha
      _ = 544110 / 10 ^ 11 := Real.sqrt_sq (by norm_num)

end Mining


/-- Counterexample for C9 as stated: for A = (52.005, 4.0) and
B = (52.005, 4.001) — same zone, same user, salt and interval — the
obfuscated distance is `111·√2/2000 ≈ 0.0785 km` while the true Haversine
distance is below `0.07 km` (under 10 km), an error of about 14%: the fixed
`cos(45°)` longitude constant overestimates east-west distances at latitude
52, so the claimed 5% bound fails. -/
theorem c9_approximation_counterexample :
    Mining.c9A.zone_hash = Mining.c9B.zone_hash
    ∧ Mining.c9o.calculateObfuscatedDistance Mining.c9A Mining.c9B
        = some (111 * Real.sqrt 2 / 2000)
    ∧ Mining.c9hav < 10
    ∧ ¬ (|111 * Real.sqrt 2 / 2000 - Mining.c9hav| ≤ 5 / 100 * Mining.c9hav) := by
  obtain ⟨h0, h7⟩ := Mining.c9_hav_bounds
  have hs2 : (1414213 : ℝ) / 10 ^ 6 ≤ Real.sqrt 2 :=
    Real.le_sqrt_of_sq_le (by norm_num)
  refine ⟨by decide, Mining.c9_obf_eval, by linarith, ?_⟩
  rw [not_le]
  calc 5 / 100 * Mining.c9hav ≤ 5 / 100 * (7 / 100) := by nlinarith
    _ < 111 * ((1414213 : ℝ) / 10 ^ 6) / 2000 - 7 / 100 := by norm_num
    _ ≤ 111 * Real.sqrt 2 / 2000 - Mining.c9hav := by nlinarith
    _ ≤ |111 * Real.sqrt 2 / 2000 - Mining.c9hav| := le_abs_self _

namespace Mining

lemma pyInt_bounds (q : ℚ) : (pyInt q : ℚ) - 1 < q ∧ q < (pyInt q : ℚ) + 1 := by
  unfold pyInt
  split_ifs with h
  · rw [ratFloor_eq_intFloor]
    constructor
    · have := Int.floor_le q
      push_cast at this ⊢
      linarith
    · have := Int.lt_floor_add_one q
      push_cast at this ⊢
      linarith
  · rw [ratFloor_eq_intFloor]
    constructor
    · have := Int.lt_floor_add_one (-q)
      push_cast at this ⊢
      linarith
    · have := Int.floor_le (-q)
      push_cast at this ⊢
      linarith

lemma ns_obf_eval (lat1 lat2 lon : ℚ) (uid : ℤ) (n : ℕ) (salt : String)
    (t1 t2 : ℚ)
    (hzone : (CoordinateObfuscator.make salt).getGeographicZone lat1 lon =
             (CoordinateObfuscator.make salt).getGeographicZone lat2 lon) :
    (CoordinateObfuscator.make salt).calculateObfuscatedDistance
        ((CoordinateObfuscator.make salt).obfuscateCoordinate lat1 lon uid n t1)
        ((CoordinateObfuscator.make salt).obfuscateCoordinate lat2 lon uid n t2)
      = some (111 * |(lat2 : ℝ) - (lat1 : ℝ)|) := by
  have hzh : ((CoordinateObfuscator.make salt).obfuscateCoordinate lat1 lon uid n t1).zone_hash
      = ((CoordinateObfuscator.make salt).obfuscateCoordinate lat2 lon uid n t2).zone_hash := by
    show (CoordinateObfuscator.make salt).getZoneHash
        ((CoordinateObfuscator.make salt).getGeographicZone lat1 lon).1
        ((CoordinateObfuscator.make salt).getGeographicZone lat1 lon).2
      = (CoordinateObfuscator.make salt).getZoneHash
        ((CoordinateObfuscator.make salt).getGeographicZone lat2 lon).1
        ((CoordinateObfuscator.make salt).getGeographicZone lat2 lon).2
    rw [hzone]
  have hdx : ((CoordinateObfuscator.make salt).obfuscateCoordinate lat2 lon uid n t2).x
      - ((CoordinateObfuscator.make salt).obfuscateCoordinate lat1 lon uid n t1).x = 0 := by
    show ((lon - ((((CoordinateObfuscator.make salt).getGeographicZone lat2 lon).2 : ℚ) *
            (CoordinateObfuscator.make salt).zone_size +
            (CoordinateObfuscator.make salt).zone_size / 2)) +
          ((CoordinateObfuscator.make salt).getUserOffset uid n).1) * 100000 -
        ((lon - ((((CoordinateObfuscator.make salt).getGeographicZone lat1 lon).2 : ℚ) *
            (CoordinateObfuscator.make salt).zone_size +
            (CoordinateObfuscator.make salt).zone_size / 2)) +
          ((CoordinateObfuscator.make salt).getUserOffset uid n).1) * 100000 = 0
    rw [hzone]
    ring
  have hdy : ((CoordinateObfuscator.make salt).obfuscateCoordinate lat2 lon uid n t2).y
      - ((CoordinateObfuscator.make salt).obfuscateCoordinate lat1 lon uid n t1).y
      = (lat2 - lat1) * 100000 := by
    show ((lat2 - ((((CoordinateObfuscator.make salt).getGeographicZone lat2 lon).1 : ℚ) *
            (CoordinateObfuscator.make salt).zone_size +
            (CoordinateObfuscator.make salt).zone_size / 2)) +
          ((CoordinateObfuscator.make salt).getUserOffset uid n).2) * 100000 -
        ((lat1 - ((((CoordinateObfuscator.make salt).getGeographicZone lat1 lon).1 : ℚ) *
            (CoordinateObfuscator.make salt).zone_size +
            (CoordinateObfuscator.make salt).zone_size / 2)) +
          ((CoordinateObfuscator.make salt).getUserOffset uid n).2) * 100000
        = (lat2 - lat1) * 100000
    rw [hzone]
    ring
  unfold CoordinateObfuscator.calculateObfuscatedDistance
  rw [if_neg (not_not_intro hzh)]
  dsimp only
  rw [hdx, hdy]
  congr 1
  have harg : (((0 : ℚ) : ℝ) / 100000 * (111 * Real.cos (radians 45))) ^ 2 +
      ((((lat2 - lat1) * 100000 : ℚ) : ℝ) / 100000 * 111) ^ 2
      = (111 * ((lat2 : ℝ) - (lat1 : ℝ))) ^ 2 := by
    push_cast
    ring
  rw [harg, Real.sqrt_sq_eq_abs, abs_mul,
    abs_of_nonneg (show (0 : ℝ) ≤ 111 from by norm_num)]

lemma ns_hav_eq (lat1 lat2 lon : ℚ)
    (hdl : |(lat2 : ℝ) - (lat1 : ℝ)| < 2 / 100) :
    calculate_distance ((lat1 : ℝ), (lon : ℝ)) ((lat2 : ℝ), (lon : ℝ))
      = 6371 * (2 * (|(lat2 : ℝ) - (lat1 : ℝ)| * (Real.pi / 360))) := by
  have hπlo := Real.pi_gt_d6
  have hπhi := Real.pi_lt_d6
  unfold calculate_distance
  dsimp only
  rw [sub_self, zero_div, Real.sin_zero,
    show ((0 : ℝ)) ^ 2 = 0 from by norm_num, mul_zero, add_zero]
  set t := (radians ((lat2 : ℚ) : ℝ) - radians ((lat1 : ℚ) : ℝ)) / 2 with htdef
  have htval : t = ((lat2 : ℝ) - (lat1 : ℝ)) * (Real.pi / 360) := by
    rw [htdef]
    unfold radians
    ring
  have htabs : |t| = |(lat2 : ℝ) - (lat1 : ℝ)| * (Real.pi / 360) := by
    rw [htval, abs_mul, abs_of_pos (by positivity : (0 : ℝ) < Real.pi / 360)]
  have htsmall : |t| < Real.pi / 2 := by
    rw [htabs]
    nlinarith [abs_nonneg ((lat2 : ℝ) - (lat1 : ℝ))]
  obtain ⟨htlo, hthi⟩ := abs_lt.mp htsmall
  have hcos_pos : 0 < Real.cos t := Real.cos_pos_of_mem_Ioo ⟨htlo, hthi⟩
  have h1a : 1 - Real.sin t ^ 2 = Real.cos t ^ 2 := by
    nlinarith [Real.sin_sq_add_cos_sq t]
  rw [Real.sqrt_sq_eq_abs, h1a, Real.sqrt_sq_eq_abs, abs_of_pos hcos_pos]
  unfold atan2
  rw [if_pos hcos_pos]
  have hsinabs : |Real.sin t| = Real.sin |t| := by
    rcases abs_cases t with ⟨h1, h2⟩ | ⟨h1, h2⟩
    · rw [h1, abs_of_nonneg (Real.sin_nonneg_of_nonneg_of_le_pi h2 (by nlinarith))]
    · have hs : 0 ≤ Real.sin (-t) :=
        Real.sin_nonneg_of_nonneg_of_le_pi (by linarith) (by nlinarith)
      rw [Real.sin_neg] at hs
      rw [h1, abs_of_nonpos (by linarith), ← Real.sin_neg]
  have htan : Real.tan |t| = |Real.sin t| / Real.cos t := by
    rw [Real.tan_eq_sin_div_cos, Real.cos_abs, hsinabs]
  rw [← htan, Real.arctan_tan (by nlinarith [abs_nonneg t]) htsmall, htabs]

end Mining


/-- Claim C9 (amended): for two points with equal longitude falling in the
same geographic zone, obfuscated with the same user, salt and interval
number, the obfuscated distance is `111·|Δlat|` km, which is within 5% of
the true Haversine distance between the points (itself under 10 km).  (The
5% bound fails in general for east-west displacement — see the
counterexample — because the longitude constant uses `cos(45°)` regardless
of the actual latitude.) -/
theorem c9_same_zone_north_south_within_5pct (lat1 lat2 lon : ℚ) (uid : ℤ)
    (n : ℕ) (salt : String) (t1 t2 : ℚ)
    (hzone : (Mining.CoordinateObfuscator.make salt).getGeographicZone lat1 lon =
             (Mining.CoordinateObfuscator.make salt).getGeographicZone lat2 lon) :
    (Mining.CoordinateObfuscator.make salt).calculateObfuscatedDistance
        ((Mining.CoordinateObfuscator.make salt).obfuscateCoordinate lat1 lon uid n t1)
        ((Mining.CoordinateObfuscator.make salt).obfuscateCoordinate lat2 lon uid n t2)
      = some (111 * |(lat2 : ℝ) - (lat1 : ℝ)|)
    ∧ |111 * |(lat2 : ℝ) - (lat1 : ℝ)| -
          Mining.calculate_distance ((lat1 : ℝ), (lon : ℝ)) ((lat2 : ℝ), (lon : ℝ))|
        ≤ 5 / 100 * Mining.calculate_distance ((lat1 : ℝ), (lon : ℝ)) ((lat2 : ℝ), (lon : ℝ))
    ∧ Mining.calculate_distance ((lat1 : ℝ), (lon : ℝ)) ((lat2 : ℝ), (lon : ℝ)) < 10 := by
  have hπlo := Real.pi_gt_d6
  have hπhi := Real.pi_lt_d6
  have hzlat : pyInt (lat1 / (1 / 100)) = pyInt (lat2 / (1 / 100)) :=
    congrArg Prod.fst hzone
  have hb1 := Mining.pyInt_bounds (lat1 / (1 / 100))
  have hb2 := Mining.pyInt_bounds (lat2 / (1 / 100))
  have hk : (pyInt (lat1 / (1 / 100)) : ℚ) = (pyInt (lat2 / (1 / 100)) : ℚ) := by
    rw [hzlat]
  have h1e : lat1 / (1 / 100) = 100 * lat1 := by ring
  have h2e : lat2 / (1 / 100) = 100 * lat2 := by ring
  have hdlq : |lat2 - lat1| < 2 / 100 := by
    rw [abs_lt]
    constructor <;> nlinarith [hb1.1, hb1.2, hb2.1, hb2.2, hk, h1e, h2e]
  have hdlR : |(lat2 : ℝ) - (lat1 : ℝ)| < 2 / 100 := by
    have hcast : (lat2 : ℝ) - (lat1 : ℝ) = ((lat2 - lat1 : ℚ) : ℝ) := by push_cast; ring
    have h3 : ((|lat2 - lat1| : ℚ) : ℝ) < ((2 / 100 : ℚ) : ℝ) := by exact_mod_cast hdlq
    rw [Rat.cast_abs] at h3
    rw [hcast]
    exact lt_of_lt_of_le h3 (by norm_num)
  have hobf := Mining.ns_obf_eval lat1 lat2 lon uid n salt t1 t2 hzone
  have hhav := Mining.ns_hav_eq lat1 lat2 lon hdlR
  refine ⟨hobf, ?_, ?_⟩
  · rw [hhav]
    have hx0 : 0 ≤ |(lat2 : ℝ) - (lat1 : ℝ)| := abs_nonneg _
    rw [abs_of_nonpos (by nlinarith)]
    nlinarith
  · rw [hhav]
    nlinarith [abs_nonneg ((lat2 : ℝ) - (lat1 : ℝ))]

/-- Witness for C9 (amended): the concrete same-zone north-south pair
`(52.001, 4.0)` and `(52.006, 4.0)`. -/
theorem c9_same_zone_north_south_within_5pct_witness :
    (Mining.CoordinateObfuscator.make "s").calculateObfuscatedDistance
        ((Mining.CoordinateObfuscator.make "s").obfuscateCoordinate (52001 / 1000) 4 3 1 0)
        ((Mining.CoordinateObfuscator.make "s").obfuscateCoordinate (52006 / 1000) 4 3 1 5)
      = some (111 * |((52006 / 1000 : ℚ) : ℝ) - ((52001 / 1000 : ℚ) : ℝ)|)
    ∧ Mining.calculate_distance (((52001 / 1000 : ℚ) : ℝ), ((4 : ℚ) : ℝ))
        (((52006 / 1000 : ℚ) : ℝ), ((4 : ℚ) : ℝ)) < 10 := by
  have h := c9_same_zone_north_south_within_5pct (52001 / 1000) (52006 / 1000) 4
    3 1 "s" 0 5 (by decide)
  exact ⟨h.1, h.2.2⟩
